import Mathlib

/-!
Shallow embedding of the per-collection sharded metadata manager
(src/mongo/db/s/metadata_manager.cpp).

Keys of the sharding key space are modelled as naturals; a chunk or orphan
range is the half-open interval [min, max).  The manager state carries the
active tracker, the list of retired-but-referenced trackers (front =
oldest), the receiving set (an ordered min-key to max-key map), and the
cleanup queue (CollectionRangeDeleter).  Notifications are modelled by
identifiers allocated from a counter; firing a notification with an error
is recorded in the cleaner state.  Operations whose C++ counterpart can
dereference a null metadata pointer or trip a fatal invariant return
Option, with none for the fault.
-/

/-- A half-open key range [min, max), as ChunkRange over BSON keys. -/
structure ChunkRange where
  min : Nat
  max : Nat
deriving DecidableEq, Repr

/-- Two half-open ranges intersect (ChunkRange::overlapWith non-empty). -/
def ChunkRange.overlaps (a b : ChunkRange) : Bool :=
  a.min < b.max && b.min < a.max

/-- A collection version: combined major-minor version plus the epoch of the
collection incarnation.  Epoch 0 stands for the null epoch of the
UNSHARDED sentinel version. -/
structure ChunkVersion where
  combined : Nat
  epoch : Nat
deriving DecidableEq, Repr

/-- ChunkVersion::UNSHARDED(): version 0 with the null epoch. -/
def ChunkVersion.UNSHARDED : ChunkVersion := { combined := 0, epoch := 0 }

/-- Modelled from the spec: ChunkVersion::isWriteCompatibleWith (the
implementation is not part of this repository slice).  Versions are write
compatible when they agree on epoch and on the combined version. -/
def ChunkVersion.isWriteCompatibleWith (a b : ChunkVersion) : Bool :=
  a.epoch == b.epoch && a.combined == b.combined

/-- The immutable chunk ownership map (CollectionMetadata): the chunks owned
by this shard plus the collection and shard versions. -/
structure CollectionMetadata where
  chunks : List ChunkRange
  collVersion : ChunkVersion
  shardVersion : ChunkVersion
deriving DecidableEq, Repr

/-- Modelled from the spec: CollectionMetadata::rangeOverlapsChunk (the
implementation is not part of this repository slice) — whether the range
intersects any chunk owned by this shard. -/
def CollectionMetadata.rangeOverlapsChunk (cm : CollectionMetadata) (r : ChunkRange) : Bool :=
  cm.chunks.any (fun c => ChunkRange.overlaps c r)

/-- A pending deletion: a key range plus its one-shot notification,
modelled by an identifier. -/
structure Deletion where
  range : ChunkRange
  notification : Nat
deriving DecidableEq, Repr

/-- Error codes surfaced across the manager boundary. -/
inductive ErrorCodes where
  | RangeOverlapConflict : ErrorCodes
  | InterruptedDueToReplStateChange : ErrorCodes
deriving DecidableEq, Repr

/-- State of the cleanup queue (CollectionRangeDeleter) together with the
observable effects of the cleanup driver: how many background tasks were
scheduled and which notifications have been fired with an error. -/
structure CleanerState where
  queue : List Deletion
  scheduled : Nat
  fired : List (Nat × ErrorCodes)
deriving DecidableEq, Repr

/-- Modelled from the spec: CollectionRangeDeleter::add is append-only FIFO
and reports whether a non-empty list transitioned the queue from empty to
non-empty; MetadataManager::_pushListToClean schedules a background task
exactly when it does. -/
def CleanerState.pushList (c : CleanerState) (ds : List Deletion) : CleanerState :=
  { c with
    queue := c.queue ++ ds,
    scheduled := if c.queue.isEmpty && !ds.isEmpty then c.scheduled + 1 else c.scheduled }

/-- Modelled from the spec: CollectionRangeDeleter::clear(error) fires every
pending notification with the error and empties the queue. -/
def CleanerState.clear (c : CleanerState) (e : ErrorCodes) : CleanerState :=
  { queue := [],
    scheduled := c.scheduled,
    fired := c.fired ++ c.queue.map (fun d => (d.notification, e)) }

/-- The retirement-capable wrapper around one CollectionMetadata
(MetadataManager::Tracker).  The manager field models whether the
trackerLock-guarded back pointer to the owning manager is still set. -/
structure Tracker where
  metadata : Option CollectionMetadata
  usageCounter : Nat
  orphans : List Deletion
  manager : Bool
deriving DecidableEq, Repr

/-- The MetadataManager state: the active tracker, the in-use list (front =
oldest), the receiving set as an ordered min-to-max map, the cleanup
queue, the shutdown flag, and the notification allocator. -/
structure MetadataManager where
  activeMetadataTracker : Tracker
  metadataInUse : List Tracker
  receivingChunks : List (Nat × Nat)
  cleaner : CleanerState
  shuttingDown : Bool
  nextNotification : Nat
deriving DecidableEq, Repr

/-- A freshly constructed manager: active tracker with no metadata, empty
in-use list, empty receiving set, empty cleanup queue. -/
def initManager : MetadataManager :=
  { activeMetadataTracker := { metadata := none, usageCounter := 0, orphans := [], manager := true },
    metadataInUse := [],
    receivingChunks := [],
    cleaner := { queue := [], scheduled := 0, fired := [] },
    shuttingDown := false,
    nextNotification := 0 }

/-- MetadataManager::_pushListToClean: append the deletions to the cleanup
queue, scheduling the background task on the empty-to-non-empty
transition. -/
def MetadataManager.pushListToClean (m : MetadataManager) (ds : List Deletion) : MetadataManager :=
  { m with cleaner := m.cleaner.pushList ds }

/-- MetadataManager::_pushRangeToClean: wrap the range in a deletion with a
fresh notification, push it, and return the notification. -/
def MetadataManager.pushRangeToClean (m : MetadataManager) (r : ChunkRange) :
    Nat × MetadataManager :=
  (m.nextNotification,
   { m with
     cleaner := m.cleaner.pushList [{ range := r, notification := m.nextNotification }],
     nextNotification := m.nextNotification + 1 })

/-- Concatenation of the orphans lists of a list of trackers, in list
order. -/
def allOrphans : List Tracker → List Deletion
  | [] => []
  | t :: ts => t.orphans ++ allOrphans ts

/-- MetadataManager::_clearAllCleanups: transfer every tracker's orphans to
the cleanup queue (in-use trackers first, then the active tracker), then
clear the queue, firing every pending notification with
InterruptedDueToReplStateChange. -/
def MetadataManager.clearAllCleanups (m : MetadataManager) : MetadataManager :=
  { m with
    metadataInUse := m.metadataInUse.map (fun t => { t with orphans := [] }),
    activeMetadataTracker := { m.activeMetadataTracker with orphans := [] },
    cleaner :=
      ((m.metadataInUse.foldl (fun c t => c.pushList t.orphans) m.cleaner).pushList
          m.activeMetadataTracker.orphans).clear
        ErrorCodes.InterruptedDueToReplStateChange }

/-- The single step of MetadataManager::_retireExpiredMetadata's loop,
recursing along the in-use list: while the front tracker's usageCounter is
zero, transfer its orphans (when any) to the cleanup queue and pop it;
stop at the first tracker with a non-zero counter.  The popped tracker's
CollectionMetadata is discarded with it. -/
def retireLoop : List Tracker → CleanerState → List Tracker × CleanerState
  | [], c => ([], c)
  | t :: rest, c =>
    if t.usageCounter == 0 then
      retireLoop rest (if t.orphans.isEmpty then c else c.pushList t.orphans)
    else (t :: rest, c)

/-- MetadataManager::_retireExpiredMetadata: run the front-to-back loop;
afterwards, if the in-use list is empty and the active tracker holds
orphans, drain them into the cleanup queue (the active tracker itself is
never removed). -/
def MetadataManager.retireExpiredMetadata (m : MetadataManager) : MetadataManager :=
  let p := retireLoop m.metadataInUse m.cleaner
  if p.1.isEmpty && !m.activeMetadataTracker.orphans.isEmpty then
    { m with
      metadataInUse := p.1,
      cleaner := p.2.pushList m.activeMetadataTracker.orphans,
      activeMetadataTracker := { m.activeMetadataTracker with orphans := [] } }
  else
    { m with metadataInUse := p.1, cleaner := p.2 }

/-- MetadataManager::_setActiveMetadata_inlock: push the current active
tracker onto the back of the in-use list, make a fresh tracker (usage
counter zero, no orphans) wrapping the new metadata the active one, and
retire whatever became expirable. -/
def MetadataManager.setActiveMetadata (m : MetadataManager)
    (newMetadata : Option CollectionMetadata) : MetadataManager :=
  MetadataManager.retireExpiredMetadata
    { m with
      metadataInUse := m.metadataInUse ++ [m.activeMetadataTracker],
      activeMetadataTracker :=
        { metadata := newMetadata, usageCounter := 0, orphans := [], manager := true } }

/-- One pass of the receiving-chunks resolution loop in
MetadataManager::refreshActiveMetadata: erase the first entry whose range
overlaps a chunk of the remote metadata; none when no entry overlaps. -/
def eraseFirstOverlapping (rm : CollectionMetadata) :
    List (Nat × Nat) → Option (List (Nat × Nat))
  | [] => none
  | e :: rest =>
    if rm.rangeOverlapsChunk { min := e.1, max := e.2 } then some rest
    else (eraseFirstOverlapping rm rest).map (fun l => e :: l)

/-- Fuel-indexed iteration of the resolution loop; the source loop restarts
from begin() after every erase, and each erase removes one entry, so the
length of the map bounds the number of erasures. -/
def resolveAux (rm : CollectionMetadata) : Nat → List (Nat × Nat) → List (Nat × Nat)
  | 0, rc => rc
  | fuel + 1, rc =>
    match eraseFirstOverlapping rm rc with
    | none => rc
    | some rc' => resolveAux rm fuel rc'

/-- The receiving-chunks resolution loop of refreshActiveMetadata: erase
every receiving entry whose range overlaps a chunk of the remote
metadata. -/
def resolveReceivingChunks (rm : CollectionMetadata) (rc : List (Nat × Nat)) :
    List (Nat × Nat) :=
  resolveAux rm rc.length rc

/-- MetadataManager::refreshActiveMetadata.  Returns none when a fatal
invariant trips (unsharded remote version, or a non-empty receiving set or
cleanup queue where one is asserted empty). -/
def MetadataManager.refreshActiveMetadata (m : MetadataManager)
    (remoteMetadata : Option CollectionMetadata) : Option MetadataManager :=
  match remoteMetadata with
  | none =>
    match m.activeMetadataTracker.metadata with
    | none =>
      -- collection was never sharded; assert both books are empty
      if m.receivingChunks.isEmpty && m.cleaner.queue.isEmpty then some m else none
    | some _ =>
      -- collection is becoming unsharded
      some (MetadataManager.clearAllCleanups
        (MetadataManager.setActiveMetadata { m with receivingChunks := [] } none))
  | some rm =>
    -- we should never be setting unsharded metadata
    if rm.collVersion.isWriteCompatibleWith ChunkVersion.UNSHARDED ||
       rm.shardVersion.isWriteCompatibleWith ChunkVersion.UNSHARDED then none
    else
      match m.activeMetadataTracker.metadata with
      | none =>
        -- collection is becoming sharded
        if m.receivingChunks.isEmpty && m.cleaner.queue.isEmpty then
          some (MetadataManager.setActiveMetadata m (some rm))
        else none
      | some am =>
        if am.collVersion.epoch != rm.collVersion.epoch then
          -- epoch change: reset receiving set, install remote, abort cleanups
          some (MetadataManager.clearAllCleanups
            (MetadataManager.setActiveMetadata { m with receivingChunks := [] } (some rm)))
        else if rm.collVersion.combined ≤ am.collVersion.combined then
          -- we already have a newer version; ignore the stale refresh
          some m
        else
          some (MetadataManager.setActiveMetadata
            { m with receivingChunks := resolveReceivingChunks rm m.receivingChunks }
            (some rm))

/-- Modelled from the spec: rangeMapOverlaps (range_arithmetic, not part of
this repository slice) — whether [mn, mx) overlaps some entry of the
min-to-max map. -/
def rangeMapOverlaps (rc : List (Nat × Nat)) (mn mx : Nat) : Bool :=
  rc.any (fun e => ChunkRange.overlaps { min := e.1, max := e.2 } { min := mn, max := mx })

/-- Insertion into the receiving map (std::map::insert keyed by the range's
min key): sorted position, and a no-op when the key is already bound. -/
def receivingInsert : List (Nat × Nat) → Nat → Nat → List (Nat × Nat)
  | [], k, v => [(k, v)]
  | e :: rest, k, v =>
    if k < e.1 then (k, v) :: e :: rest
    else if k == e.1 then e :: rest
    else e :: receivingInsert rest k v

/-- Erasure from the receiving map by min key
(MetadataManager::_removeFromReceiving); none when the key is absent,
which the source treats as a fatal invariant. -/
def receivingErase : List (Nat × Nat) → Nat → Option (List (Nat × Nat))
  | [], _ => none
  | e :: rest, k =>
    if e.1 == k then some rest
    else (receivingErase rest k).map (fun l => e :: l)

/-- The in-use part of MetadataManager::_overlapsInUseChunk: walk the in-use
list and test trackers still pinned by queries; dereferencing a pinned
tracker with no metadata faults (none). -/
def overlapsInUseList (r : ChunkRange) : List Tracker → Option Bool
  | [] => some false
  | t :: ts =>
    if t.usageCounter != 0 then
      match t.metadata with
      | none => none
      | some md =>
        if md.rangeOverlapsChunk r then some true else overlapsInUseList r ts
    else overlapsInUseList r ts

/-- MetadataManager::_overlapsInUseChunk: the active map regardless of its
reference count, then every pinned in-use tracker. -/
def MetadataManager.overlapsInUseChunk (m : MetadataManager) (r : ChunkRange) : Option Bool :=
  match m.activeMetadataTracker.metadata with
  | none => none
  | some md =>
    if md.rangeOverlapsChunk r then some true
    else overlapsInUseList r m.metadataInUse

/-- Total description of the pinned-overlap test, used to state theorems:
some pinned (usageCounter non-zero) in-use tracker's map overlaps the
range. -/
def pinnedOverlapsChunk (l : List Tracker) (r : ChunkRange) : Bool :=
  l.any (fun t =>
    t.usageCounter != 0 &&
      (match t.metadata with
       | none => false
       | some md => md.rangeOverlapsChunk r))

/-- Result of beginReceive and cleanUpRange: a synchronous conflict status,
or the notification of the enqueued deletion. -/
inductive CleanupResult where
  | conflict : ErrorCodes → CleanupResult
  | notification : Nat → CleanupResult
deriving DecidableEq, Repr

/-- MetadataManager::beginReceive: reject when the range overlaps the active
map or a pinned in-use tracker's map; otherwise add the range to the
receiving set and push an immediate deletion of the range, returning its
notification.  Faults (none) when the active metadata is absent. -/
def MetadataManager.beginReceive (m : MetadataManager) (r : ChunkRange) :
    Option (CleanupResult × MetadataManager) :=
  match m.activeMetadataTracker.metadata with
  | none => none
  | some md =>
    match m.overlapsInUseChunk r with
    | none => none
    | some b =>
      if b || md.rangeOverlapsChunk r then
        some (CleanupResult.conflict ErrorCodes.RangeOverlapConflict, m)
      else
        let m1 := { m with receivingChunks := receivingInsert m.receivingChunks r.min r.max }
        let p := m1.pushRangeToClean r
        some (CleanupResult.notification p.1, p.2)

/-- MetadataManager::forgetReceive: assert no in-use tracker (active
included) overlaps the range, remove it from the receiving set, and push
its deletion without returning the notification. -/
def MetadataManager.forgetReceive (m : MetadataManager) (r : ChunkRange) :
    Option MetadataManager :=
  match m.activeMetadataTracker.metadata with
  | none => none
  | some md =>
    match m.overlapsInUseChunk r with
    | none => none
    | some b =>
      if b || md.rangeOverlapsChunk r then none
      else
        match receivingErase m.receivingChunks r.min with
        | none => none
        | some rc =>
          some
            { m with
              receivingChunks := rc,
              cleaner := m.cleaner.pushList [{ range := r, notification := m.nextNotification }],
              nextNotification := m.nextNotification + 1 }

/-- MetadataManager::cleanUpRange: reject when the range overlaps the active
map or the receiving set; enqueue immediately when no pinned in-use
tracker overlaps it, and otherwise append a pending deletion to the active
tracker's orphans.  Faults (none) when the active metadata is absent. -/
def MetadataManager.cleanUpRange (m : MetadataManager) (r : ChunkRange) :
    Option (CleanupResult × MetadataManager) :=
  match m.activeMetadataTracker.metadata with
  | none => none
  | some md =>
    if md.rangeOverlapsChunk r then
      some (CleanupResult.conflict ErrorCodes.RangeOverlapConflict, m)
    else if rangeMapOverlaps m.receivingChunks r.min r.max then
      some (CleanupResult.conflict ErrorCodes.RangeOverlapConflict, m)
    else
      match m.overlapsInUseChunk r with
      | none => none
      | some false =>
        let p := m.pushRangeToClean r
        some (CleanupResult.notification p.1, p.2)
      | some true =>
        some
          (CleanupResult.notification m.nextNotification,
           { m with
             activeMetadataTracker :=
               { m.activeMetadataTracker with
                 orphans := m.activeMetadataTracker.orphans ++
                   [{ range := r, notification := m.nextNotification }] },
             nextNotification := m.nextNotification + 1 })

/-- Which tracker a snapshot handle pins: the active tracker, or the
in-use tracker at a position (0 = front = oldest). -/
inductive TrackerRef where
  | active : TrackerRef
  | inUse : Nat → TrackerRef
deriving DecidableEq, Repr

/-- Positional lookup in the in-use list. -/
def nthTracker : List Tracker → Nat → Option Tracker
  | [], _ => none
  | t :: _, 0 => some t
  | _ :: ts, n + 1 => nthTracker ts n

/-- Positional replacement in the in-use list. -/
def setNthTracker : List Tracker → Nat → Tracker → List Tracker
  | [], _, _ => []
  | _ :: ts, 0, t => t :: ts
  | s :: ts, n + 1, t => s :: setNthTracker ts n t

/-- The tracker a handle reference designates within the manager state. -/
def MetadataManager.getTracker (m : MetadataManager) : TrackerRef → Option Tracker
  | TrackerRef.active => some m.activeMetadataTracker
  | TrackerRef.inUse i => nthTracker m.metadataInUse i

/-- Replace the tracker a handle reference designates. -/
def MetadataManager.setTracker (m : MetadataManager) (ref : TrackerRef) (t : Tracker) :
    MetadataManager :=
  match ref with
  | TrackerRef.active => { m with activeMetadataTracker := t }
  | TrackerRef.inUse i => { m with metadataInUse := setNthTracker m.metadataInUse i t }

/-- MetadataManager::getActiveMetadata: the _activeMetadataTracker shared
pointer is installed at construction and only ever replaced by
_setActiveMetadata_inlock, so it is never null; the null test always
passes and a handle pinning the active tracker is returned, incrementing
its usageCounter. -/
def MetadataManager.getActiveMetadata (m : MetadataManager) :
    Option TrackerRef × MetadataManager :=
  (some TrackerRef.active,
   { m with
     activeMetadataTracker :=
       { m.activeMetadataTracker with
         usageCounter := m.activeMetadataTracker.usageCounter + 1 } })

/-- ScopedCollectionMetadata::operator bool: the handle holds a tracker and
the tracker holds metadata. -/
def scopedBool (m : MetadataManager) (h : Option TrackerRef) : Bool :=
  match h with
  | none => false
  | some ref =>
    match m.getTracker ref with
    | none => false
    | some t => t.metadata.isSome

/-- ScopedCollectionMetadata::_clear on a handle pinning the tracker at ref:
read the trackerLock-guarded back pointer; when it is null, drop the
reference with no further work; when it is set, decrement the usage
counter (asserted non-zero) and retire expired metadata exactly when the
counter reached zero and the manager is not shutting down. -/
def MetadataManager.scopedClear (m : MetadataManager) (ref : TrackerRef) :
    Option MetadataManager :=
  match m.getTracker ref with
  | none => none
  | some t =>
    if t.manager then
      if t.usageCounter == 0 then none
      else
        let t' := { t with usageCounter := t.usageCounter - 1 }
        let m' := m.setTracker ref t'
        if t'.usageCounter == 0 && !m.shuttingDown then
          some m'.retireExpiredMetadata
        else some m'
    else some m

/-- MetadataManager::~MetadataManager: set the shutdown flag, clear all
cleanups, move the in-use list out, and null every surviving tracker's
back pointer (the in-use trackers and the active one).  Returns the final
state and the detached trackers that outstanding handles may still
reference. -/
def MetadataManager.destroy (m : MetadataManager) : MetadataManager × List Tracker :=
  let m1 := MetadataManager.clearAllCleanups { m with shuttingDown := true }
  ({ m1 with
     metadataInUse := [],
     activeMetadataTracker := { m1.activeMetadataTracker with manager := false } },
   (m1.metadataInUse ++ [m1.activeMetadataTracker]).map (fun t => { t with manager := false }))

/-- The structured document produced by the diagnostic dump
(MetadataManager::append). -/
structure AppendedDocument where
  rangesToClean : List ChunkRange
  pendingChunks : List (Nat × Nat)
  activeMetadataRanges : List ChunkRange
deriving DecidableEq, Repr

/-- MetadataManager::append: dump the cleanup queue's ranges, the receiving
set, and the active map's chunk ranges.  Building activeMetadataRanges
dereferences the active tracker's metadata, so the operation faults
(none) on an unsharded manager. -/
def MetadataManager.append (m : MetadataManager) : Option AppendedDocument :=
  match m.activeMetadataTracker.metadata with
  | none => none
  | some md =>
    some
      { rangesToClean := m.cleaner.queue.map (fun d => d.range),
        pendingChunks := m.receivingChunks,
        activeMetadataRanges := md.chunks }

/-- Every pending deletion of the manager: the cleanup queue, the in-use
trackers' orphans, and the active tracker's orphans. -/
def MetadataManager.pendingDeletions (m : MetadataManager) : List Deletion :=
  m.cleaner.queue ++ allOrphans m.metadataInUse ++ m.activeMetadataTracker.orphans

/-- The prefix of the in-use list the retirement loop removes: the maximal
front run of trackers with usageCounter zero. -/
def expiredPrefix : List Tracker → List Tracker
  | [] => []
  | t :: ts => if t.usageCounter == 0 then t :: expiredPrefix ts else []

/-- The suffix of the in-use list the retirement loop keeps: everything from
the first tracker with a non-zero usageCounter on. -/
def unexpiredSuffix : List Tracker → List Tracker
  | [] => []
  | t :: ts => if t.usageCounter == 0 then unexpiredSuffix ts else t :: ts

/-! ## Concrete states used by witnesses and counterexamples -/

/-- A small chunk map: this shard owns [0, 10) at version 3 of epoch 7. -/
def mdW : CollectionMetadata :=
  { chunks := [{ min := 0, max := 10 }],
    collVersion := { combined := 3, epoch := 7 },
    shardVersion := { combined := 3, epoch := 7 } }

/-- A prior chunk map: the shard owned [20, 30) at version 2 of epoch 7. -/
def mdOldW : CollectionMetadata :=
  { chunks := [{ min := 20, max := 30 }],
    collVersion := { combined := 2, epoch := 7 },
    shardVersion := { combined := 2, epoch := 7 } }

/-- A refreshed chunk map: the shard owns [0, 20) at version 4 of epoch 7. -/
def rmW : CollectionMetadata :=
  { chunks := [{ min := 0, max := 20 }],
    collVersion := { combined := 4, epoch := 7 },
    shardVersion := { combined := 4, epoch := 7 } }

/-- A sharded manager with active map mdW and nothing else going on. -/
def mW : MetadataManager :=
  { initManager with
    activeMetadataTracker := { metadata := some mdW, usageCounter := 0, orphans := [], manager := true } }

/-- mW with one pinned in-use tracker still holding the older map mdOldW. -/
def mWin : MetadataManager :=
  { mW with
    metadataInUse := [{ metadata := some mdOldW, usageCounter := 1, orphans := [], manager := true }] }

/-- A sharded manager with pending deletions in every place: an active
orphan, a pinned in-use tracker's orphan, and a queued deletion. -/
def mW5 : MetadataManager :=
  { activeMetadataTracker :=
      { metadata := some mdW, usageCounter := 0,
        orphans := [{ range := { min := 40, max := 50 }, notification := 5 }], manager := true },
    metadataInUse :=
      [{ metadata := some mdOldW, usageCounter := 1,
         orphans := [{ range := { min := 60, max := 70 }, notification := 6 }], manager := true }],
    receivingChunks := [(200, 210)],
    cleaner := { queue := [{ range := { min := 80, max := 90 }, notification := 7 }],
                 scheduled := 1, fired := [] },
    shuttingDown := false,
    nextNotification := 8 }

/-- A shutting-down manager whose active tracker is pinned once. -/
def mW7 : MetadataManager :=
  { mW with
    shuttingDown := true,
    activeMetadataTracker := { metadata := some mdW, usageCounter := 1, orphans := [], manager := true } }

/-- A manager whose active tracker's back pointer has been nulled (as after
~MetadataManager) while a handle still pins it. -/
def mW8 : MetadataManager :=
  { mW with
    activeMetadataTracker := { metadata := some mdW, usageCounter := 1, orphans := [], manager := false } }

/-- The chunk map installed in the C4 counterexample: the shard owns
[100, 110) at version 2 of epoch 9. -/
def mdShardEx : CollectionMetadata :=
  { chunks := [{ min := 100, max := 110 }],
    collVersion := { combined := 2, epoch := 9 },
    shardVersion := { combined := 2, epoch := 9 } }

/-- The manager obtained by refreshing a fresh manager with mdShardEx. -/
def s1ex : MetadataManager :=
  (initManager.refreshActiveMetadata (some mdShardEx)).getD initManager

/-- The manager obtained from s1ex by beginReceive([0, 10)). -/
def s2ex : MetadataManager :=
  ((s1ex.beginReceive { min := 0, max := 10 }).getD
    (CleanupResult.conflict ErrorCodes.RangeOverlapConflict, s1ex)).2

/-! ## List-level helper lemmas -/

theorem expiredPrefix_append_unexpiredSuffix (l : List Tracker) :
    expiredPrefix l ++ unexpiredSuffix l = l := by
  induction l with
  | nil => rfl
  | cons t ts ih =>
    cases hc : t.usageCounter == 0 with
    | false => simp [expiredPrefix, unexpiredSuffix, hc]
    | true => simp [expiredPrefix, unexpiredSuffix, hc, ih]

theorem mem_expiredPrefix_counter {t : Tracker} :
    ∀ {l : List Tracker}, t ∈ expiredPrefix l → t.usageCounter = 0 := by
  intro l
  induction l with
  | nil => intro h; simp [expiredPrefix] at h
  | cons s ts ih =>
    intro h
    cases hc : s.usageCounter == 0 with
    | false => simp [expiredPrefix, hc] at h
    | true =>
      simp only [expiredPrefix, hc, if_true] at h
      rcases List.mem_cons.mp h with h | h
      · subst h; simpa using hc
      · exact ih h

theorem allOrphans_append (l1 l2 : List Tracker) :
    allOrphans (l1 ++ l2) = allOrphans l1 ++ allOrphans l2 := by
  induction l1 with
  | nil => simp [allOrphans]
  | cons t ts ih => simp [allOrphans, ih]

theorem retireLoop_spec (l : List Tracker) :
    ∀ c : CleanerState,
      (retireLoop l c).1 = unexpiredSuffix l ∧
      (retireLoop l c).2.queue = c.queue ++ allOrphans (expiredPrefix l) ∧
      (retireLoop l c).2.fired = c.fired := by
  induction l with
  | nil =>
    intro c
    simp [retireLoop, unexpiredSuffix, expiredPrefix, allOrphans]
  | cons t ts ih =>
    intro c
    cases hc : t.usageCounter == 0 with
    | false =>
      simp [retireLoop, hc, unexpiredSuffix, expiredPrefix, allOrphans]
    | true =>
      have hq : ((if t.orphans.isEmpty then c else c.pushList t.orphans)).queue
          = c.queue ++ t.orphans := by
        cases ho : t.orphans with
        | nil => simp [ho]
        | cons d ds => simp [ho, CleanerState.pushList]
      have hf : ((if t.orphans.isEmpty then c else c.pushList t.orphans)).fired = c.fired := by
        cases ho : t.orphans with
        | nil => simp [ho]
        | cons d ds => simp [ho, CleanerState.pushList]
      obtain ⟨h1, h2, h3⟩ := ih (if t.orphans.isEmpty then c else c.pushList t.orphans)
      refine ⟨?_, ?_, ?_⟩
      · simpa [retireLoop, hc, unexpiredSuffix] using h1
      · simp only [retireLoop, hc, if_true]
        rw [h2, hq]
        simp [expiredPrefix, hc, allOrphans, List.append_assoc]
      · simp only [retireLoop, hc, if_true]
        rw [h3, hf]

/-- Full characterization of MetadataManager::_retireExpiredMetadata:
retirement removes exactly the maximal zero-counter prefix of the in-use
list, appending the removed trackers' orphans to the cleanup queue in
order, and drains the active tracker's orphans exactly when the in-use
list has emptied; everything else is untouched. -/
theorem retireSpec (m : MetadataManager) :
    (m.retireExpiredMetadata).metadataInUse = unexpiredSuffix m.metadataInUse ∧
    (m.retireExpiredMetadata).cleaner.queue =
      m.cleaner.queue ++ allOrphans (expiredPrefix m.metadataInUse) ++
        (if (unexpiredSuffix m.metadataInUse).isEmpty
         then m.activeMetadataTracker.orphans else []) ∧
    (m.retireExpiredMetadata).activeMetadataTracker.orphans =
      (if (unexpiredSuffix m.metadataInUse).isEmpty then []
       else m.activeMetadataTracker.orphans) ∧
    (m.retireExpiredMetadata).activeMetadataTracker.metadata =
      m.activeMetadataTracker.metadata ∧
    (m.retireExpiredMetadata).activeMetadataTracker.usageCounter =
      m.activeMetadataTracker.usageCounter ∧
    (m.retireExpiredMetadata).activeMetadataTracker.manager =
      m.activeMetadataTracker.manager ∧
    (m.retireExpiredMetadata).receivingChunks = m.receivingChunks ∧
    (m.retireExpiredMetadata).cleaner.fired = m.cleaner.fired ∧
    (m.retireExpiredMetadata).shuttingDown = m.shuttingDown ∧
    (m.retireExpiredMetadata).nextNotification = m.nextNotification := by
  obtain ⟨h1, h2, h3⟩ := retireLoop_spec m.metadataInUse m.cleaner
  by_cases hs : (unexpiredSuffix m.metadataInUse).isEmpty = true
  · cases ho : m.activeMetadataTracker.orphans with
    | nil =>
      simp [MetadataManager.retireExpiredMetadata, h1, h2, h3, hs, ho]
    | cons d ds =>
      simp [MetadataManager.retireExpiredMetadata, h1, h2, h3, hs, ho,
        CleanerState.pushList, List.append_assoc]
  · have hs' : (unexpiredSuffix m.metadataInUse).isEmpty = false :=
      Bool.eq_false_iff.mpr hs
    simp [MetadataManager.retireExpiredMetadata, h1, h2, h3, hs']

theorem foldl_pushList_spec (l : List Tracker) :
    ∀ c : CleanerState,
      (l.foldl (fun c t => c.pushList t.orphans) c).queue = c.queue ++ allOrphans l ∧
      (l.foldl (fun c t => c.pushList t.orphans) c).fired = c.fired := by
  induction l with
  | nil => intro c; simp [allOrphans]
  | cons t ts ih =>
    intro c
    obtain ⟨h1, h2⟩ := ih (c.pushList t.orphans)
    refine ⟨?_, ?_⟩
    · simp only [List.foldl_cons]
      rw [h1]
      simp [CleanerState.pushList, allOrphans, List.append_assoc]
    · simp only [List.foldl_cons]
      rw [h2]
      simp [CleanerState.pushList]

/-- Full characterization of MetadataManager::_clearAllCleanups: the queue
empties, every previously pending deletion (queue, in-use orphans, active
orphans, in that order) has its notification fired with
InterruptedDueToReplStateChange, and all orphans lists empty. -/
theorem clearAllCleanupsSpec (m : MetadataManager) :
    (m.clearAllCleanups).cleaner.queue = [] ∧
    (m.clearAllCleanups).cleaner.fired =
      m.cleaner.fired ++
        (m.cleaner.queue ++ allOrphans m.metadataInUse ++
          m.activeMetadataTracker.orphans).map
          (fun d => (d.notification, ErrorCodes.InterruptedDueToReplStateChange)) ∧
    (m.clearAllCleanups).metadataInUse =
      m.metadataInUse.map (fun t => { t with orphans := [] }) ∧
    (m.clearAllCleanups).activeMetadataTracker =
      { m.activeMetadataTracker with orphans := [] } ∧
    (m.clearAllCleanups).receivingChunks = m.receivingChunks ∧
    (m.clearAllCleanups).shuttingDown = m.shuttingDown ∧
    (m.clearAllCleanups).nextNotification = m.nextNotification := by
  obtain ⟨h1, h2⟩ := foldl_pushList_spec m.metadataInUse m.cleaner
  simp only [MetadataManager.clearAllCleanups]
  set F := m.metadataInUse.foldl (fun c t => c.pushList t.orphans) m.cleaner with hF
  refine ⟨?_, ?_, ?_, ?_, ?_, ?_, ?_⟩ <;>
    simp only [CleanerState.clear, CleanerState.pushList] <;>
    rw [h1, h2]

theorem eraseFirstOverlapping_none {rm : CollectionMetadata} :
    ∀ {rc : List (Nat × Nat)}, eraseFirstOverlapping rm rc = none →
      ∀ e ∈ rc, rm.rangeOverlapsChunk { min := e.1, max := e.2 } = false := by
  intro rc
  induction rc with
  | nil => intro _ e he; simp at he
  | cons e rest ih =>
    intro h f hf
    cases hp : rm.rangeOverlapsChunk { min := e.1, max := e.2 } with
    | true => simp [eraseFirstOverlapping, hp] at h
    | false =>
      simp only [eraseFirstOverlapping, hp, Bool.false_eq_true, if_false,
        Option.map_eq_none'] at h
      rcases List.mem_cons.mp hf with hf | hf
      · subst hf; exact hp
      · exact ih h f hf

theorem eraseFirstOverlapping_some {rm : CollectionMetadata} :
    ∀ {rc rc' : List (Nat × Nat)}, eraseFirstOverlapping rm rc = some rc' →
      rc'.filter (fun e => !(rm.rangeOverlapsChunk { min := e.1, max := e.2 })) =
        rc.filter (fun e => !(rm.rangeOverlapsChunk { min := e.1, max := e.2 })) ∧
      rc'.length + 1 = rc.length := by
  intro rc
  induction rc with
  | nil => intro rc' h; simp [eraseFirstOverlapping] at h
  | cons e rest ih =>
    intro rc' h
    cases hp : rm.rangeOverlapsChunk { min := e.1, max := e.2 } with
    | true =>
      simp only [eraseFirstOverlapping, hp, if_true, Option.some_inj] at h
      subst h
      constructor
      · simp [List.filter_cons, hp]
      · simp
    | false =>
      simp only [eraseFirstOverlapping, hp, Bool.false_eq_true, if_false] at h
      rcases Option.map_eq_some'.mp h with ⟨l', hl', rfl⟩
      obtain ⟨h1, h2⟩ := ih hl'
      constructor
      · simp [List.filter_cons, hp, h1]
      · simp [← h2]

theorem resolveAux_eq_filter (rm : CollectionMetadata) :
    ∀ (fuel : Nat) (rc : List (Nat × Nat)), rc.length ≤ fuel →
      resolveAux rm fuel rc =
        rc.filter (fun e => !(rm.rangeOverlapsChunk { min := e.1, max := e.2 })) := by
  intro fuel
  induction fuel with
  | zero =>
    intro rc h
    have : rc = [] := List.eq_nil_of_length_eq_zero (Nat.le_zero.mp h)
    subst this
    rfl
  | succ n ih =>
    intro rc h
    cases he : eraseFirstOverlapping rm rc with
    | none =>
      have hall : ∀ e ∈ rc, (!(rm.rangeOverlapsChunk { min := e.1, max := e.2 })) = true := by
        intro e hme
        simp [eraseFirstOverlapping_none he e hme]
      simp only [resolveAux, he]
      exact (List.filter_eq_self.mpr hall).symm
    | some rc' =>
      obtain ⟨h1, h2⟩ := eraseFirstOverlapping_some he
      simp only [resolveAux, he]
      rw [ih rc' (by omega), h1]

/-- The receiving-chunks resolution loop removes exactly the entries whose
range overlaps some chunk of the remote metadata. -/
theorem resolveReceivingChunks_eq_filter (rm : CollectionMetadata) (rc : List (Nat × Nat)) :
    resolveReceivingChunks rm rc =
      rc.filter (fun e => !(rm.rangeOverlapsChunk { min := e.1, max := e.2 })) :=
  resolveAux_eq_filter rm rc.length rc le_rfl

/-- When every pinned in-use tracker still holds metadata, the in-use walk
of _overlapsInUseChunk computes the pinned-overlap predicate. -/
theorem overlapsInUseList_spec (r : ChunkRange) :
    ∀ {l : List Tracker}, (∀ t ∈ l, t.usageCounter ≠ 0 → t.metadata.isSome = true) →
      overlapsInUseList r l = some (pinnedOverlapsChunk l r) := by
  intro l
  induction l with
  | nil => intro _; simp [overlapsInUseList, pinnedOverlapsChunk]
  | cons t ts ih =>
    intro hw
    have hts : ∀ t ∈ ts, t.usageCounter ≠ 0 → t.metadata.isSome = true := by
      intro s hs
      exact hw s (List.mem_cons_of_mem t hs)
    cases hc : t.usageCounter != 0 with
    | false =>
      simp only [overlapsInUseList, hc, Bool.false_eq_true, if_false]
      rw [ih hts]
      simp [pinnedOverlapsChunk, hc]
    | true =>
      have hne : t.usageCounter ≠ 0 := by simpa using hc
      have hsome := hw t (List.mem_cons_self t ts) hne
      rcases Option.isSome_iff_exists.mp hsome with ⟨md, hmd⟩
      cases hov : md.rangeOverlapsChunk r with
      | true =>
        simp [overlapsInUseList, hc, hmd, hov, pinnedOverlapsChunk]
      | false =>
        simp only [overlapsInUseList, hc, if_true, hmd, hov, Bool.false_eq_true, if_false]
        rw [ih hts]
        simp [pinnedOverlapsChunk, hc, hmd, hov]

theorem length_setNthTracker : ∀ (l : List Tracker) (i : Nat) (t : Tracker),
    (setNthTracker l i t).length = l.length := by
  intro l
  induction l with
  | nil => intro i t; rfl
  | cons s ts ih =>
    intro i t
    cases i with
    | zero => rfl
    | succ n => simp [setNthTracker, ih]

theorem map_setNthTracker {γ : Type} (f : Tracker → γ) :
    ∀ {l : List Tracker} {i : Nat} {t t' : Tracker}, nthTracker l i = some t →
      f t' = f t → (setNthTracker l i t').map f = l.map f := by
  intro l
  induction l with
  | nil => intro i t t' h _; simp [nthTracker] at h
  | cons s ts ih =>
    intro i t t' h hf
    cases i with
    | zero =>
      simp only [nthTracker, Option.some_inj] at h
      subst h
      simp [setNthTracker, hf]
    | succ n =>
      simp only [nthTracker] at h
      simp [setNthTracker, ih h hf]

theorem unexpiredSuffix_head : ∀ {l : List Tracker} {t : Tracker} {rest : List Tracker},
    unexpiredSuffix l = t :: rest → t.usageCounter ≠ 0 := by
  intro l
  induction l with
  | nil => intro t rest h; simp [unexpiredSuffix] at h
  | cons s ts ih =>
    intro t rest h
    cases hc : s.usageCounter == 0 with
    | true => exact ih (by simpa [unexpiredSuffix, hc] using h)
    | false =>
      simp only [unexpiredSuffix, hc, Bool.false_eq_true, if_false, List.cons.injEq] at h
      rcases h with ⟨rfl, -⟩
      simpa using hc

/-! ## Claim theorems -/

/-- Claim C2: retireExpired removes in-use trackers strictly from the front
of the list and only while the front tracker's usageCounter is zero
(exactly the maximal zero-counter prefix is dropped and its orphans are
transferred, in order, to the cleanup queue); it stops at the first
tracker with a non-zero counter; after the loop the active tracker's
orphans are drained into the cleanup queue if and only if the in-use list
is empty, and the active tracker itself is never removed. -/
theorem retireExpired_frontToBack (m : MetadataManager) :
    (m.retireExpiredMetadata).metadataInUse = unexpiredSuffix m.metadataInUse ∧
    expiredPrefix m.metadataInUse ++ unexpiredSuffix m.metadataInUse = m.metadataInUse ∧
    (∀ t ∈ expiredPrefix m.metadataInUse, t.usageCounter = 0) ∧
    (∀ t rest, unexpiredSuffix m.metadataInUse = t :: rest → t.usageCounter ≠ 0) ∧
    (m.retireExpiredMetadata).cleaner.queue =
      m.cleaner.queue ++ allOrphans (expiredPrefix m.metadataInUse) ++
        (if (unexpiredSuffix m.metadataInUse).isEmpty
         then m.activeMetadataTracker.orphans else []) ∧
    (m.retireExpiredMetadata).activeMetadataTracker.orphans =
      (if (unexpiredSuffix m.metadataInUse).isEmpty then []
       else m.activeMetadataTracker.orphans) ∧
    (m.retireExpiredMetadata).activeMetadataTracker.metadata =
      m.activeMetadataTracker.metadata ∧
    (m.retireExpiredMetadata).activeMetadataTracker.usageCounter =
      m.activeMetadataTracker.usageCounter := by
  obtain ⟨h1, h2, h3, h4, h5, h6, -⟩ := retireSpec m
  exact ⟨h1, expiredPrefix_append_unexpiredSuffix m.metadataInUse,
    fun t ht => mem_expiredPrefix_counter ht,
    fun t rest hr => unexpiredSuffix_head hr,
    h2, h3, h4, h5⟩

/-- Claim C10: the diagnostic dump presupposes a sharded collection — on a
manager whose active tracker holds no metadata, building the
activeMetadataRanges field dereferences the absent metadata and append
faults; with metadata present it produces the three documented fields. -/
theorem append_requires_sharded (m : MetadataManager) :
    (m.activeMetadataTracker.metadata = none → m.append = none) ∧
    (∀ md, m.activeMetadataTracker.metadata = some md →
      m.append = some
        { rangesToClean := m.cleaner.queue.map (fun d => d.range),
          pendingChunks := m.receivingChunks,
          activeMetadataRanges := md.chunks }) := by
  constructor
  · intro h
    simp [MetadataManager.append, h]
  · intro md h
    simp [MetadataManager.append, h]

/-- Witness for C10 at a concrete unsharded and a concrete sharded
manager. -/
theorem append_requires_sharded_witness :
    initManager.activeMetadataTracker.metadata = none ∧
    initManager.append = none ∧
    mW.activeMetadataTracker.metadata = some mdW ∧
    mW.append = some
      { rangesToClean := [], pendingChunks := [],
        activeMetadataRanges := [{ min := 0, max := 10 }] } :=
  ⟨rfl, (append_requires_sharded initManager).1 rfl, rfl,
    (append_requires_sharded mW).2 mdW rfl⟩

/-- Claim C6: a RangeOverlapConflict returned by beginReceive or
cleanUpRange is synchronous and never mutates state — the returned
manager is exactly the one the operation was called on. -/
theorem conflicts_do_not_mutate (m : MetadataManager) (r : ChunkRange) (e : ErrorCodes)
    (m' : MetadataManager) :
    (m.beginReceive r = some (CleanupResult.conflict e, m') → m' = m) ∧
    (m.cleanUpRange r = some (CleanupResult.conflict e, m') → m' = m) := by
  constructor
  · intro h
    unfold MetadataManager.beginReceive at h
    repeat' split at h
    all_goals simp_all
  · intro h
    unfold MetadataManager.cleanUpRange at h
    repeat' split at h
    all_goals simp_all

/-- Witness for C6: a concrete conflicting beginReceive and cleanUpRange on
a sharded manager, both leaving the state unchanged. -/
theorem conflicts_do_not_mutate_witness :
    mW.beginReceive { min := 5, max := 15 } =
      some (CleanupResult.conflict ErrorCodes.RangeOverlapConflict, mW) ∧
    mW.cleanUpRange { min := 5, max := 15 } =
      some (CleanupResult.conflict ErrorCodes.RangeOverlapConflict, mW) ∧
    mW = mW :=
  ⟨by decide, by decide,
    (conflicts_do_not_mutate mW { min := 5, max := 15 }
      ErrorCodes.RangeOverlapConflict mW).1 (by decide)⟩

/-- Claim C1: on a manager with non-empty active metadata, cleanUpRange
returns a RangeOverlapConflict when the range overlaps a chunk of the
active map or the receiving set; otherwise, when no pinned in-use
tracker's map overlaps the range, the deletion is pushed to the cleanup
queue immediately and its notification returned; otherwise a pending
deletion is appended to the active tracker's orphans list and its
notification returned. -/
theorem cleanUpRange_disposition (m : MetadataManager) (md : CollectionMetadata)
    (r : ChunkRange)
    (h : m.activeMetadataTracker.metadata = some md)
    (hw : ∀ t ∈ m.metadataInUse, t.usageCounter ≠ 0 → t.metadata.isSome = true) :
    ((md.rangeOverlapsChunk r || rangeMapOverlaps m.receivingChunks r.min r.max) = true →
      m.cleanUpRange r = some (CleanupResult.conflict ErrorCodes.RangeOverlapConflict, m)) ∧
    (md.rangeOverlapsChunk r = false →
      rangeMapOverlaps m.receivingChunks r.min r.max = false →
      pinnedOverlapsChunk m.metadataInUse r = false →
      m.cleanUpRange r = some (CleanupResult.notification m.nextNotification,
        { m with
          cleaner := m.cleaner.pushList [{ range := r, notification := m.nextNotification }],
          nextNotification := m.nextNotification + 1 })) ∧
    (md.rangeOverlapsChunk r = false →
      rangeMapOverlaps m.receivingChunks r.min r.max = false →
      pinnedOverlapsChunk m.metadataInUse r = true →
      m.cleanUpRange r = some (CleanupResult.notification m.nextNotification,
        { m with
          activeMetadataTracker :=
            { m.activeMetadataTracker with
              orphans := m.activeMetadataTracker.orphans ++
                [{ range := r, notification := m.nextNotification }] },
          nextNotification := m.nextNotification + 1 })) := by
  refine ⟨?_, ?_, ?_⟩
  · intro hc
    cases hmd : md.rangeOverlapsChunk r with
    | true => simp [MetadataManager.cleanUpRange, h, hmd]
    | false =>
      have hrc : rangeMapOverlaps m.receivingChunks r.min r.max = true := by
        simpa [hmd] using hc
      simp [MetadataManager.cleanUpRange, h, hmd, hrc]
  · intro h1 h2 h3
    have hovl := overlapsInUseList_spec r hw
    simp [MetadataManager.cleanUpRange, h, h1, h2, MetadataManager.overlapsInUseChunk,
      hovl, h3, MetadataManager.pushRangeToClean]
  · intro h1 h2 h3
    have hovl := overlapsInUseList_spec r hw
    simp [MetadataManager.cleanUpRange, h, h1, h2, MetadataManager.overlapsInUseChunk,
      hovl, h3]

/-- Witness for C1: on a manager whose pinned in-use tracker owns [20, 30),
cleanUpRange([20, 25)) defers the deletion onto the active tracker's
orphans. -/
theorem cleanUpRange_disposition_witness :
    mWin.cleanUpRange { min := 20, max := 25 } =
      some (CleanupResult.notification 0,
        { mWin with
          activeMetadataTracker :=
            { mWin.activeMetadataTracker with
              orphans := mWin.activeMetadataTracker.orphans ++
                [{ range := { min := 20, max := 25 }, notification := 0 }] },
          nextNotification := 1 }) :=
  (cleanUpRange_disposition mWin mdW { min := 20, max := 25 }
    (by decide) (by decide)).2.2 (by decide) (by decide) (by decide)

/-- Claim C4 (amended): beginReceive rejects exactly those ranges that
overlap a chunk of the active map or of a pinned in-use tracker; it does
not consult the receiving set or the cleanup queue, and an accepted range
is inserted into the receiving set while an immediate deletion of that
same range is pushed onto the cleanup queue. -/
theorem beginReceive_accept_reject (m : MetadataManager) (md : CollectionMetadata)
    (r : ChunkRange)
    (h : m.activeMetadataTracker.metadata = some md)
    (hw : ∀ t ∈ m.metadataInUse, t.usageCounter ≠ 0 → t.metadata.isSome = true) :
    ((md.rangeOverlapsChunk r || pinnedOverlapsChunk m.metadataInUse r) = true →
      m.beginReceive r = some (CleanupResult.conflict ErrorCodes.RangeOverlapConflict, m)) ∧
    (md.rangeOverlapsChunk r = false →
      pinnedOverlapsChunk m.metadataInUse r = false →
      m.beginReceive r = some (CleanupResult.notification m.nextNotification,
        { m with
          receivingChunks := receivingInsert m.receivingChunks r.min r.max,
          cleaner := m.cleaner.pushList [{ range := r, notification := m.nextNotification }],
          nextNotification := m.nextNotification + 1 })) := by
  have hovl := overlapsInUseList_spec r hw
  constructor
  · intro hc
    cases hmd : md.rangeOverlapsChunk r with
    | true => simp [MetadataManager.beginReceive, h, MetadataManager.overlapsInUseChunk, hmd]
    | false =>
      have hp : pinnedOverlapsChunk m.metadataInUse r = true := by
        simpa [hmd] using hc
      simp [MetadataManager.beginReceive, h, MetadataManager.overlapsInUseChunk,
        hmd, hovl, hp]
  · intro h1 h2
    simp [MetadataManager.beginReceive, h, MetadataManager.overlapsInUseChunk,
      h1, hovl, h2, MetadataManager.pushRangeToClean]

/-- Witness for C4's amended theorem: an accepted beginReceive on a
concrete sharded manager. -/
theorem beginReceive_accept_reject_witness :
    mW.beginReceive { min := 50, max := 60 } =
      some (CleanupResult.notification 0,
        { mW with
          receivingChunks := receivingInsert mW.receivingChunks 50 60,
          cleaner := mW.cleaner.pushList [{ range := { min := 50, max := 60 }, notification := 0 }],
          nextNotification := 1 }) :=
  (beginReceive_accept_reject mW mdW { min := 50, max := 60 }
    (by decide) (by decide)).2 (by decide) (by decide)

/-- Claim C4 counterexample: starting from a fresh manager, refreshing to a
map owning [100, 110) and then calling beginReceive([0, 10)) yields a
state whose receiving set holds (0, 10) while the cleanup queue holds the
overlapping immediate pre-wipe of [0, 10); a second
beginReceive([5, 15)), though it overlaps both, is accepted (it returns a
notification, not a conflict) and leaves two overlapping entries in the
receiving set. -/
theorem beginReceive_overlap_counterexample :
    s2ex.receivingChunks = [(0, 10)] ∧
    s2ex.cleaner.queue.map (fun d => d.range) = [{ min := 0, max := 10 }] ∧
    ChunkRange.overlaps { min := 0, max := 10 } { min := 5, max := 15 } = true ∧
    (s2ex.beginReceive { min := 5, max := 15 }).map (fun p => p.1) =
      some (CleanupResult.notification 1) ∧
    (s2ex.beginReceive { min := 5, max := 15 }).map (fun p => p.2.receivingChunks) =
      some [(0, 10), (5, 15)] := by
  decide

/-- Characterization of _setActiveMetadata_inlock: the old active tracker is
pushed onto the back of the in-use list, a fresh zero-counter tracker
wrapping the new metadata becomes active, and retirement then drops the
maximal zero-counter prefix, draining its orphans into the queue. -/
theorem setActiveMetadata_spec (m : MetadataManager) (x : Option CollectionMetadata) :
    (m.setActiveMetadata x).activeMetadataTracker.metadata = x ∧
    (m.setActiveMetadata x).activeMetadataTracker.usageCounter = 0 ∧
    (m.setActiveMetadata x).activeMetadataTracker.orphans = [] ∧
    (m.setActiveMetadata x).receivingChunks = m.receivingChunks ∧
    (m.setActiveMetadata x).metadataInUse =
      unexpiredSuffix (m.metadataInUse ++ [m.activeMetadataTracker]) ∧
    (m.setActiveMetadata x).cleaner.queue =
      m.cleaner.queue ++
        allOrphans (expiredPrefix (m.metadataInUse ++ [m.activeMetadataTracker])) ∧
    (m.setActiveMetadata x).cleaner.fired = m.cleaner.fired ∧
    (m.setActiveMetadata x).shuttingDown = m.shuttingDown ∧
    (m.setActiveMetadata x).nextNotification = m.nextNotification := by
  obtain ⟨g1, g2, g3, g4, g5, g6, g7, g8, g9, g10⟩ :=
    retireSpec
      { m with
        metadataInUse := m.metadataInUse ++ [m.activeMetadataTracker],
        activeMetadataTracker :=
          { metadata := x, usageCounter := 0, orphans := [], manager := true } }
  refine ⟨?_, ?_, ?_, ?_, ?_, ?_, ?_, ?_, ?_⟩
  · simpa [MetadataManager.setActiveMetadata] using g4
  · simpa [MetadataManager.setActiveMetadata] using g5
  · simpa [MetadataManager.setActiveMetadata] using g3
  · simpa [MetadataManager.setActiveMetadata] using g7
  · simpa [MetadataManager.setActiveMetadata] using g1
  · simpa [MetadataManager.setActiveMetadata] using g2
  · simpa [MetadataManager.setActiveMetadata] using g8
  · simpa [MetadataManager.setActiveMetadata] using g9
  · simpa [MetadataManager.setActiveMetadata] using g10

/-- Claim C3: for a refresh where both maps are non-empty and share the same
epoch, a remote collection version that is not strictly newer leaves the
manager unchanged; a strictly newer one removes from the receiving set
exactly the entries overlapping a chunk of the remote map, keeps the rest,
and installs the remote map as active, pushing the old active tracker onto
the back of the in-use list (followed by retirement of the expirable
prefix). -/
theorem refresh_sameEpoch (m : MetadataManager) (am rm : CollectionMetadata)
    (h : m.activeMetadataTracker.metadata = some am)
    (hep : rm.collVersion.epoch = am.collVersion.epoch)
    (hv1 : rm.collVersion.isWriteCompatibleWith ChunkVersion.UNSHARDED = false)
    (hv2 : rm.shardVersion.isWriteCompatibleWith ChunkVersion.UNSHARDED = false) :
    (rm.collVersion.combined ≤ am.collVersion.combined →
      m.refreshActiveMetadata (some rm) = some m) ∧
    (am.collVersion.combined < rm.collVersion.combined →
      m.refreshActiveMetadata (some rm) =
        some (MetadataManager.setActiveMetadata
          { m with
            receivingChunks :=
              m.receivingChunks.filter
                (fun e => !(rm.rangeOverlapsChunk { min := e.1, max := e.2 })) }
          (some rm)) ∧
      ∃ m', m.refreshActiveMetadata (some rm) = some m' ∧
        m'.activeMetadataTracker.metadata = some rm ∧
        m'.activeMetadataTracker.usageCounter = 0 ∧
        m'.receivingChunks =
          m.receivingChunks.filter
            (fun e => !(rm.rangeOverlapsChunk { min := e.1, max := e.2 })) ∧
        m'.metadataInUse =
          unexpiredSuffix (m.metadataInUse ++ [m.activeMetadataTracker])) := by
  have hbne : (am.collVersion.epoch != rm.collVersion.epoch) = false := by
    simp [hep]
  constructor
  · intro hle
    simp [MetadataManager.refreshActiveMetadata, h, hv1, hv2, hbne, hle]
  · intro hlt
    have hnle : ¬(rm.collVersion.combined ≤ am.collVersion.combined) := by omega
    have heq : m.refreshActiveMetadata (some rm) =
        some (MetadataManager.setActiveMetadata
          { m with
            receivingChunks :=
              m.receivingChunks.filter
                (fun e => !(rm.rangeOverlapsChunk { min := e.1, max := e.2 })) }
          (some rm)) := by
      simp [MetadataManager.refreshActiveMetadata, h, hv1, hv2, hbne, hnle,
        resolveReceivingChunks_eq_filter]
    obtain ⟨s1, s2, s3, s4, s5, s6, s7, s8, s9⟩ :=
      setActiveMetadata_spec
        { m with
          receivingChunks :=
            m.receivingChunks.filter
              (fun e => !(rm.rangeOverlapsChunk { min := e.1, max := e.2 })) }
        (some rm)
    refine ⟨heq, _, heq, s1, s2, ?_, ?_⟩
    · simpa using s4
    · simpa using s5

/-- Witness for C3: refreshing mW (version 3, epoch 7) with rmW (version 4,
epoch 7) advances to the remote map. -/
theorem refresh_sameEpoch_witness :
    mW.refreshActiveMetadata (some rmW) =
      some (MetadataManager.setActiveMetadata
        { mW with
          receivingChunks :=
            mW.receivingChunks.filter
              (fun e => !(rmW.rangeOverlapsChunk { min := e.1, max := e.2 })) }
        (some rmW)) :=
  ((refresh_sameEpoch mW mdW rmW (by decide) (by decide) (by decide) (by decide)).2
    (by decide)).1

/-- The shared abort path of refreshActiveMetadata for unsharding and epoch
change: clear the receiving set, install the new active metadata, then
clear all cleanups.  Every deletion pending before the call ends up fired
with InterruptedDueToReplStateChange, and no deletion remains pending. -/
theorem abortPath_spec (m : MetadataManager) (x : Option CollectionMetadata) :
    (MetadataManager.clearAllCleanups
      (MetadataManager.setActiveMetadata { m with receivingChunks := [] } x)).receivingChunks
        = [] ∧
    (MetadataManager.clearAllCleanups
      (MetadataManager.setActiveMetadata { m with receivingChunks := [] } x)).cleaner.queue
        = [] ∧
    (∀ t ∈ (MetadataManager.clearAllCleanups
      (MetadataManager.setActiveMetadata { m with receivingChunks := [] } x)).metadataInUse,
      t.orphans = ([] : List Deletion)) ∧
    (MetadataManager.clearAllCleanups
      (MetadataManager.setActiveMetadata
        { m with receivingChunks := [] } x)).activeMetadataTracker.orphans = [] ∧
    ∀ d ∈ m.pendingDeletions,
      (d.notification, ErrorCodes.InterruptedDueToReplStateChange) ∈
        (MetadataManager.clearAllCleanups
          (MetadataManager.setActiveMetadata { m with receivingChunks := [] } x)).cleaner.fired := by
  obtain ⟨s1, s2, s3, s4, s5, s6, s7, s8, s9⟩ :=
    setActiveMetadata_spec { m with receivingChunks := [] } x
  obtain ⟨c1, c2, c3, c4, c5, c6, c7⟩ :=
    clearAllCleanupsSpec (MetadataManager.setActiveMetadata { m with receivingChunks := [] } x)
  refine ⟨?_, c1, ?_, ?_, ?_⟩
  · rw [c5]
    simpa using s4
  · intro t ht
    rw [c3] at ht
    rcases List.mem_map.mp ht with ⟨u, -, rfl⟩
    rfl
  · rw [c4]
  · intro d hd
    have hL := expiredPrefix_append_unexpiredSuffix
      (m.metadataInUse ++ [m.activeMetadataTracker])
    have hqe :
        (MetadataManager.setActiveMetadata
            { m with receivingChunks := [] } x).cleaner.queue ++
          allOrphans (MetadataManager.setActiveMetadata
            { m with receivingChunks := [] } x).metadataInUse ++
          (MetadataManager.setActiveMetadata
            { m with receivingChunks := [] } x).activeMetadataTracker.orphans
          = m.pendingDeletions := by
      rw [s6, s5, s3]
      simp only [List.append_nil, List.append_assoc]
      rw [← allOrphans_append, hL]
      simp [MetadataManager.pendingDeletions, allOrphans_append, allOrphans,
        List.append_assoc]
    rw [c2, hqe, s7]
    have : (fun d => (d.notification, ErrorCodes.InterruptedDueToReplStateChange)) d ∈
        m.pendingDeletions.map
          (fun d => (d.notification, ErrorCodes.InterruptedDueToReplStateChange)) :=
      List.mem_map_of_mem _ hd
    exact List.mem_append_right _ this

/-- Claim C5: a refresh to unsharded, and a refresh whose non-empty remote
map carries a different epoch, both clear the receiving set and fire every
pending cleanup — orphans of the active tracker, orphans of in-use
trackers, and entries of the cleanup queue — with
InterruptedDueToReplStateChange, leaving nothing pending. -/
theorem refresh_abortsPendingCleanups (m : MetadataManager) (am : CollectionMetadata)
    (h : m.activeMetadataTracker.metadata = some am) :
    (∃ m', m.refreshActiveMetadata none = some m' ∧
      m'.receivingChunks = [] ∧
      m'.cleaner.queue = [] ∧
      (∀ t ∈ m'.metadataInUse, t.orphans = ([] : List Deletion)) ∧
      m'.activeMetadataTracker.orphans = [] ∧
      ∀ d ∈ m.pendingDeletions,
        (d.notification, ErrorCodes.InterruptedDueToReplStateChange) ∈ m'.cleaner.fired) ∧
    (∀ rm : CollectionMetadata,
      rm.collVersion.isWriteCompatibleWith ChunkVersion.UNSHARDED = false →
      rm.shardVersion.isWriteCompatibleWith ChunkVersion.UNSHARDED = false →
      rm.collVersion.epoch ≠ am.collVersion.epoch →
      ∃ m', m.refreshActiveMetadata (some rm) = some m' ∧
        m'.receivingChunks = [] ∧
        m'.cleaner.queue = [] ∧
        (∀ t ∈ m'.metadataInUse, t.orphans = ([] : List Deletion)) ∧
        m'.activeMetadataTracker.orphans = [] ∧
        ∀ d ∈ m.pendingDeletions,
          (d.notification, ErrorCodes.InterruptedDueToReplStateChange) ∈ m'.cleaner.fired) := by
  constructor
  · obtain ⟨a1, a2, a3, a4, a5⟩ := abortPath_spec m none
    refine ⟨_, ?_, a1, a2, a3, a4, a5⟩
    simp [MetadataManager.refreshActiveMetadata, h]
  · intro rm hv1 hv2 hne
    have hbne : (am.collVersion.epoch != rm.collVersion.epoch) = true := by
      simpa using fun hcontra => hne hcontra.symm
    obtain ⟨a1, a2, a3, a4, a5⟩ := abortPath_spec m (some rm)
    refine ⟨_, ?_, a1, a2, a3, a4, a5⟩
    simp [MetadataManager.refreshActiveMetadata, h, hv1, hv2, hbne]

/-- Witness for C5 on a manager with a queued deletion, a pinned in-use
orphan, and an active orphan: refreshing to unsharded aborts them all. -/
theorem refresh_abortsPendingCleanups_witness :
    mW5.activeMetadataTracker.metadata = some mdW ∧
    (∃ m', mW5.refreshActiveMetadata none = some m' ∧
      m'.receivingChunks = [] ∧
      m'.cleaner.queue = [] ∧
      (∀ t ∈ m'.metadataInUse, t.orphans = ([] : List Deletion)) ∧
      m'.activeMetadataTracker.orphans = [] ∧
      ∀ d ∈ mW5.pendingDeletions,
        (d.notification, ErrorCodes.InterruptedDueToReplStateChange) ∈ m'.cleaner.fired) :=
  ⟨by decide, (refresh_abortsPendingCleanups mW5 mdW (by decide)).1⟩

/-- Claim C7: while the manager is shutting down, releasing a snapshot
handle — the only manager work that can still race with the destructor —
decrements the pinned tracker's usageCounter and does nothing else: even
when the counter reaches zero, retireExpired is not invoked, no tracker is
removed, no deletion is enqueued, and no cleanup task is scheduled (the
cleaner state, receiving set, and every tracker's metadata and orphans are
unchanged). -/
theorem shuttingDown_release_quiescent (m : MetadataManager) (ref : TrackerRef) (t : Tracker)
    (hget : m.getTracker ref = some t) (hmgr : t.manager = true)
    (hcnt : t.usageCounter ≠ 0) (hsd : m.shuttingDown = true) :
    m.scopedClear ref =
      some (m.setTracker ref { t with usageCounter := t.usageCounter - 1 }) ∧
    (m.setTracker ref { t with usageCounter := t.usageCounter - 1 }).cleaner = m.cleaner ∧
    (m.setTracker ref
      { t with usageCounter := t.usageCounter - 1 }).receivingChunks = m.receivingChunks ∧
    (m.setTracker ref { t with usageCounter := t.usageCounter - 1 }).metadataInUse.map
        (fun s => s.orphans) = m.metadataInUse.map (fun s => s.orphans) ∧
    (m.setTracker ref { t with usageCounter := t.usageCounter - 1 }).metadataInUse.map
        (fun s => s.metadata) = m.metadataInUse.map (fun s => s.metadata) ∧
    (m.setTracker ref
      { t with usageCounter := t.usageCounter - 1 }).metadataInUse.length
        = m.metadataInUse.length ∧
    (m.setTracker ref
      { t with usageCounter := t.usageCounter - 1 }).activeMetadataTracker.orphans
        = m.activeMetadataTracker.orphans ∧
    (m.setTracker ref
      { t with usageCounter := t.usageCounter - 1 }).activeMetadataTracker.metadata
        = m.activeMetadataTracker.metadata ∧
    (m.setTracker ref
      { t with usageCounter := t.usageCounter - 1 }).nextNotification = m.nextNotification := by
  have hc0 : (t.usageCounter == 0) = false := by simpa using hcnt
  have hclear : m.scopedClear ref =
      some (m.setTracker ref { t with usageCounter := t.usageCounter - 1 }) := by
    simp [MetadataManager.scopedClear, hget, hmgr, hc0, hsd]
  cases ref with
  | active =>
    have heq : m.activeMetadataTracker = t := by
      simpa [MetadataManager.getTracker] using hget
    refine ⟨hclear, ?_, ?_, ?_, ?_, ?_, ?_, ?_, ?_⟩ <;>
      simp [MetadataManager.setTracker, ← heq]
  | inUse i =>
    have hget' : nthTracker m.metadataInUse i = some t := by
      simpa [MetadataManager.getTracker] using hget
    refine ⟨hclear, rfl, rfl, ?_, ?_, ?_, rfl, rfl, rfl⟩
    · exact map_setNthTracker (fun s => s.orphans) hget' rfl
    · exact map_setNthTracker (fun s => s.metadata) hget' rfl
    · exact length_setNthTracker m.metadataInUse i _

/-- Witness for C7: releasing the single pin on the active tracker of a
shutting-down manager only decrements the counter. -/
theorem shuttingDown_release_quiescent_witness :
    mW7.getTracker TrackerRef.active = some mW7.activeMetadataTracker ∧
    mW7.activeMetadataTracker.manager = true ∧
    mW7.activeMetadataTracker.usageCounter ≠ 0 ∧
    mW7.shuttingDown = true ∧
    mW7.scopedClear TrackerRef.active =
      some (mW7.setTracker TrackerRef.active
        { mW7.activeMetadataTracker with
          usageCounter := mW7.activeMetadataTracker.usageCounter - 1 }) :=
  ⟨rfl, rfl, by decide, rfl,
    (shuttingDown_release_quiescent mW7 TrackerRef.active mW7.activeMetadataTracker
      rfl rfl (by decide) rfl).1⟩

/-- Claim C8: releasing a handle whose tracker's manager back pointer is
null performs no further work at all (the state, including the
usageCounter, is untouched and the handle merely drops its reference);
with the back pointer set, release decrements the counter and invokes
retireExpired exactly when the counter reached zero and the manager is not
shutting down.  The destructor nulls the back pointer of every surviving
tracker while preserving its metadata, so such a handle remains readable
until released. -/
theorem scopedClear_backreference (m : MetadataManager) (ref : TrackerRef) (t : Tracker)
    (hget : m.getTracker ref = some t) :
    (t.manager = false → m.scopedClear ref = some m) ∧
    (t.manager = true → t.usageCounter ≠ 0 →
      m.scopedClear ref =
        some (if (t.usageCounter - 1 == 0 && !m.shuttingDown) = true
          then (m.setTracker ref
            { t with usageCounter := t.usageCounter - 1 }).retireExpiredMetadata
          else m.setTracker ref { t with usageCounter := t.usageCounter - 1 })) ∧
    (∀ s ∈ (m.destroy).2, s.manager = false) ∧
    ((m.destroy).2.map (fun s => s.metadata) =
      m.metadataInUse.map (fun s => s.metadata) ++ [m.activeMetadataTracker.metadata]) := by
  refine ⟨?_, ?_, ?_, ?_⟩
  · intro hm
    simp [MetadataManager.scopedClear, hget, hm]
  · intro hm hc
    have hc0 : (t.usageCounter == 0) = false := by simpa using hc
    simp only [MetadataManager.scopedClear, hget, hm, hc0, Bool.false_eq_true, if_false,
      if_true]
    split <;> simp_all
  · intro s hs
    simp only [MetadataManager.destroy] at hs
    rcases List.mem_map.mp hs with ⟨u, -, rfl⟩
    rfl
  · obtain ⟨-, -, c3, c4, -, -, -⟩ :=
      clearAllCleanupsSpec { m with shuttingDown := true }
    simp [MetadataManager.destroy, c3, c4, List.map_map, Function.comp_def]

/-- Witness for C8: a handle pinning a tracker whose back pointer was nulled
releases without touching anything. -/
theorem scopedClear_backreference_witness :
    mW8.getTracker TrackerRef.active = some mW8.activeMetadataTracker ∧
    mW8.activeMetadataTracker.manager = false ∧
    mW8.scopedClear TrackerRef.active = some mW8 :=
  ⟨rfl, rfl,
    (scopedClear_backreference mW8 TrackerRef.active mW8.activeMetadataTracker rfl).1 rfl⟩

/-- Claim C9 (amended): getActive always returns a handle pinning the active
tracker, incrementing its usageCounter by one, even when the manager holds
no ChunkMap; the handle's operator-bool equals the presence of active
metadata, so it is false exactly on an unsharded manager, but the handle
still holds the tracker and is not the empty handle. -/
theorem getActiveMetadata_always_pins (m : MetadataManager) :
    (m.getActiveMetadata).1 = some TrackerRef.active ∧
    (m.getActiveMetadata).2.activeMetadataTracker.usageCounter =
      m.activeMetadataTracker.usageCounter + 1 ∧
    (m.getActiveMetadata).2.activeMetadataTracker.metadata =
      m.activeMetadataTracker.metadata ∧
    (m.getActiveMetadata).2.metadataInUse = m.metadataInUse ∧
    (m.getActiveMetadata).2.cleaner = m.cleaner ∧
    (m.getActiveMetadata).2.receivingChunks = m.receivingChunks ∧
    scopedBool (m.getActiveMetadata).2 (m.getActiveMetadata).1 =
      (m.activeMetadataTracker.metadata).isSome := by
  refine ⟨rfl, rfl, rfl, rfl, rfl, rfl, ?_⟩
  simp [scopedBool, MetadataManager.getActiveMetadata, MetadataManager.getTracker]

/-- Claim C9 counterexample: on a concrete unsharded manager, getActive
returns a handle whose operator-bool is false, yet the handle pins the
active tracker (its usageCounter becomes one) and releasing it is not a
no-op: the release decrements the counter back, so the state after release
differs from the state the handle saw. -/
theorem getActive_unsharded_counterexample :
    initManager.activeMetadataTracker.metadata = none ∧
    (initManager.getActiveMetadata).1 = some TrackerRef.active ∧
    (initManager.getActiveMetadata).2.activeMetadataTracker.usageCounter = 1 ∧
    scopedBool (initManager.getActiveMetadata).2 (initManager.getActiveMetadata).1 = false ∧
    (initManager.getActiveMetadata).2.scopedClear TrackerRef.active ≠
      some ((initManager.getActiveMetadata).2) ∧
    (initManager.getActiveMetadata).2.scopedClear TrackerRef.active = some initManager := by
  decide

/-- Witness for C2 on a concrete manager whose in-use list holds a pinned
tracker: retirement stops at it and drains nothing of the active
tracker. -/
theorem retireExpired_frontToBack_witness :
    (mW5.retireExpiredMetadata).metadataInUse = unexpiredSuffix mW5.metadataInUse ∧
    (mW5.retireExpiredMetadata).activeMetadataTracker.orphans =
      (if (unexpiredSuffix mW5.metadataInUse).isEmpty then []
       else mW5.activeMetadataTracker.orphans) :=
  ⟨(retireExpired_frontToBack mW5).1,
    (retireExpired_frontToBack mW5).2.2.2.2.2.1⟩
